import Mathlib

/-!
Shallow embedding of `src/bridge.py`, a learning network bridge running a
simplified spanning-tree algorithm.  Bridge identifiers are Python strings,
compared lexicographically, and are embedded as `String`; Python integers are
embedded as `Int`.  Side effects are made explicit: sends are collected into
output lists, the forwarding table (a Python dict keyed by source identifier)
is an association list with unique keys, and Python exceptions are surfaced
through `PyError` values.
-/

namespace Bridge

/-- Python exceptions that the relevant code paths can raise. -/
inductive PyError where
  | jsonDecodeError
  | keyError
  | nameError
  | valueError
deriving DecidableEq

/-- Python's `<` on strings: lexicographic comparison of code points. -/
def lexLt : List Char → List Char → Bool
  | [], [] => false
  | [], _ :: _ => true
  | _ :: _, [] => false
  | a :: as, b :: bs => if a < b then true else if b < a then false else lexLt as bs

/-- Python `a < b` on identifier strings. -/
def pyLt (a b : String) : Bool := lexLt a.data b.data

/-- Python `a >= b` on identifier strings (total order, so `≥` is `¬ <`). -/
def pyGe (a b : String) : Bool := !(pyLt a b)

/-- Embeds class `Port` (bridge.py:101).  The socket is not modelled; `send`
below records the observable transmissions instead. -/
structure Port where
  id : Nat
  lan_port : Nat
  enabled : Bool
  min_cost : Int
  permanently_disabled : Bool
deriving DecidableEq, Inhabited

/-- `Port.__init__` (bridge.py:121): `enabled` starts `True`, then
`set_enabled(not permanently_disabled)` runs, and `min_cost` starts at 0. -/
def Port.init (id : Nat) (lan_port : Nat) (permanently_disabled : Bool) : Port :=
  { id := id, lan_port := lan_port, enabled := !permanently_disabled,
    min_cost := 0, permanently_disabled := permanently_disabled }

/-- `Port.set_min_cost` (bridge.py:153). -/
def Port.set_min_cost (p : Port) (cost : Int) : Port :=
  { p with min_cost := cost }

/-- `Port.update_min_cost` (bridge.py:157): lower the stored minimum if the
given cost is smaller. -/
def Port.update_min_cost (p : Port) (cost : Int) : Port :=
  if p.min_cost > cost then { p with min_cost := cost } else p

/-- `Port.set_enabled` (bridge.py:173); the print is not modelled. -/
def Port.set_enabled (p : Port) (enabled : Bool) : Port :=
  { p with enabled := enabled }

/-- `Port.is_enabled` (bridge.py:185). -/
def Port.is_enabled (p : Port) : Bool :=
  p.enabled && !p.permanently_disabled

/-- Embeds class `BridgeInfo` (bridge.py:19). -/
structure BridgeInfo where
  bridge_id : String
  root_port : Int
  root_id : String
  cost : Int
  next_hop : String
  unconfirmed : Int
deriving DecidableEq

/-- `BridgeInfo.__init__` (bridge.py:37): the bridge starts believing itself
root, with cost 0 and root-port sentinel -1. -/
def BridgeInfo.init (bridge_id : String) : BridgeInfo :=
  { bridge_id := bridge_id, root_port := -1, root_id := bridge_id,
    cost := 0, next_hop := bridge_id, unconfirmed := 0 }

/-- `BridgeInfo.set_root_port` (bridge.py:59). -/
def BridgeInfo.set_root_port (bi : BridgeInfo) (port : Int) : BridgeInfo :=
  { bi with root_port := port }

/-- `BridgeInfo.set_root_id` (bridge.py:67). -/
def BridgeInfo.set_root_id (bi : BridgeInfo) (id : String) : BridgeInfo :=
  { bi with root_id := id }

/-- `BridgeInfo.set_cost` (bridge.py:75). -/
def BridgeInfo.set_cost (bi : BridgeInfo) (new_cost : Int) : BridgeInfo :=
  { bi with cost := new_cost }

/-- `BridgeInfo.set_next_hop` (bridge.py:83). -/
def BridgeInfo.set_next_hop (bi : BridgeInfo) (hop : String) : BridgeInfo :=
  { bi with next_hop := hop }

/-- `BridgeInfo.increase_unconfirmed` (bridge.py:91). -/
def BridgeInfo.increase_unconfirmed (bi : BridgeInfo) : BridgeInfo :=
  { bi with unconfirmed := bi.unconfirmed + 1 }

/-- `BridgeInfo.reset_unconfirmed` (bridge.py:95). -/
def BridgeInfo.reset_unconfirmed (bi : BridgeInfo) : BridgeInfo :=
  { bi with unconfirmed := 0 }

/-- One BPDU datagram handed to a LAN endpoint, as produced by
`Port.send_bpdu` (bridge.py:190): destination endpoint, the sending port id
carried in the payload, and the advertised root and cost. -/
structure Sent where
  lan_port : Nat
  port_id : Nat
  root : String
  cost : Int
deriving DecidableEq

/-- `Port.send_bpdu` (bridge.py:190): suppressed on permanently disabled
ports, otherwise one datagram to this port's LAN endpoint. -/
def Port.send_bpdu (p : Port) (root_id : String) (cost : Int) : List Sent :=
  if p.permanently_disabled then [] else
    [{ lan_port := p.lan_port, port_id := p.id, root := root_id, cost := cost }]

/-- `Port.send` for data frames (bridge.py:206): suppressed on permanently
disabled ports; the observable recorded is the id of the transmitting port. -/
def Port.send (p : Port) : List Nat :=
  if p.permanently_disabled then [] else [p.id]

/-- `send_bpdus` (bridge.py:220): a BPDU on every port. -/
def send_bpdus (PORTS : List Port) (root_id : String) (cost : Int) : List Sent :=
  PORTS.flatMap fun p => p.send_bpdu root_id cost

/-- The condition under which `update_bpdu` (bridge.py:266-269) judges the
received BPDU strictly better than the current belief: lower advertised root,
or equal root and strictly smaller resulting cost, or equal root, advertised
cost equal to the current cost, and a smaller sender than the current next
hop.  (Note the third disjunct compares `msg_cost` with `cost` itself, not
`msg_cost + 1`, exactly as the source does.) -/
def better (msg_root : String) (msg_cost : Int) (msg_source : String) (bi : BridgeInfo) : Prop :=
  pyLt msg_root bi.root_id = true
    ∨ (msg_root = bi.root_id ∧ msg_cost + 1 < bi.cost)
    ∨ (msg_root = bi.root_id ∧ msg_cost = bi.cost ∧ pyLt msg_source bi.next_hop = true)

instance (msg_root : String) (msg_cost : Int) (msg_source : String) (bi : BridgeInfo) :
    Decidable (better msg_root msg_cost msg_source bi) := by
  unfold better
  infer_instance

/-- The reconfirmation condition of `update_bpdu` (bridge.py:290-291): the
frame restates the exact current path, or the bridge believes itself root. -/
def reconfirms (msg_root : String) (msg_cost : Int) (msg_source : String) (bi : BridgeInfo) : Prop :=
  (msg_root = bi.root_id ∧ msg_cost + 1 = bi.cost ∧ msg_source = bi.next_hop)
    ∨ bi.root_id = bi.bridge_id

instance (msg_root : String) (msg_cost : Int) (msg_source : String) (bi : BridgeInfo) :
    Decidable (reconfirms msg_root msg_cost msg_source bi) := by
  unfold reconfirms
  infer_instance

/-- The trailing block of `update_bpdu` (bridge.py:294-305): when the frame's
advertised root matches the (possibly just-updated) current root, lower the
ingress port's `min_cost` and recompute its enabled flag.  `bi` is the bridge
info after the preceding updates.  Python would raise IndexError were
`curr_port` out of range; callers always pass an in-range ingress index. -/
def designated_update (msg_root : String) (msg_cost : Int) (msg_source : String)
    (curr_port : Nat) (ports : List Port) (bi : BridgeInfo) : List Port :=
  if msg_root = bi.root_id then
    match ports.get? curr_port with
    | some p =>
        let p1 := p.update_min_cost msg_cost
        let p2 :=
          if p1.permanently_disabled = false ∧
              (p1.min_cost ≥ bi.cost + 1
                ∨ (p1.min_cost = bi.cost ∧ pyGe msg_source bi.bridge_id = true)
                ∨ (p1.min_cost = bi.cost - 1 ∧ (curr_port : Int) = bi.root_port)) then
            if p1.is_enabled = true then p1 else p1.set_enabled true
          else
            if p1.is_enabled = true then p1.set_enabled false else p1
        ports.set curr_port p2
    | none => ports
  else ports

/-- Result of one `update_bpdu` call: the new port list and bridge info, the
`updated` return value, and the BPDUs transmitted during the call. -/
structure UpdateResult where
  ports : List Port
  info : BridgeInfo
  updated : Bool
  sent : List Sent
deriving DecidableEq

/-- `update_bpdu` (bridge.py:239-306).  If the frame is judged better, adopt
the advertised root (only when it is strictly lower), set cost to the
advertised cost plus one, record sender and ingress port, reset every port's
`min_cost` to 999999 except the ingress port (set to the new cost minus one),
and broadcast the new belief; otherwise, if the frame reconfirms the current
path or the bridge believes itself root, reset the liveness counter.  In all
cases the trailing `designated_update` block then runs. -/
def update_bpdu (msg_root : String) (msg_cost : Int) (msg_source : String)
    (curr_port : Nat) (PORTS : List Port) (bridgeInfo : BridgeInfo) : UpdateResult :=
  if better msg_root msg_cost msg_source bridgeInfo then
    let bi1 := if pyLt msg_root bridgeInfo.root_id = true
               then bridgeInfo.set_root_id msg_root else bridgeInfo
    let bi2 := ((bi1.set_cost (msg_cost + 1)).set_next_hop msg_source).set_root_port (curr_port : Int)
    let ports1 := PORTS.map fun p =>
      if p.id ≠ curr_port then p.set_min_cost 999999 else p.set_min_cost (bi2.cost - 1)
    { ports := designated_update msg_root msg_cost msg_source curr_port ports1 bi2,
      info := bi2, updated := true,
      sent := send_bpdus ports1 bi2.root_id bi2.cost }
  else if reconfirms msg_root msg_cost msg_source bridgeInfo then
    { ports := designated_update msg_root msg_cost msg_source curr_port PORTS bridgeInfo.reset_unconfirmed,
      info := bridgeInfo.reset_unconfirmed, updated := false, sent := [] }
  else
    { ports := designated_update msg_root msg_cost msg_source curr_port PORTS bridgeInfo,
      info := bridgeInfo, updated := false, sent := [] }

/-- The forwarding table `ADDR_TABLE` (a Python dict in insertion order,
keyed by source identifier, valued by ingress port index). -/
abbrev AddrTable := List (String × Nat)

/-- Dict membership / lookup on the forwarding table. -/
def tableLookup (t : AddrTable) (k : String) : Option Nat :=
  (t.find? fun e => e.1 == k).map (fun e => e.2)

/-- `sending_data` (bridge.py:313-330): learn the source if unseen, then
unicast to the port recorded for the destination (unless that port is the
ingress port or not enabled), or broadcast to every enabled port other than
the ingress port when the destination is unknown.  Returns the new table and
the ids of the ports that transmitted the frame.  Python compares ports by
object identity in the broadcast loop; list positions play that role here. -/
def sending_data (msg_source msg_dest : String) (curr_port : Nat)
    (PORTS : List Port) (ADDR_TABLE : AddrTable) : AddrTable × List Nat :=
  let t := if (tableLookup ADDR_TABLE msg_source).isSome then ADDR_TABLE
           else ADDR_TABLE ++ [(msg_source, curr_port)]
  match tableLookup t msg_dest with
  | some port_id =>
      if port_id ≠ curr_port ∧ (PORTS.getD port_id default).is_enabled = true then
        (t, (PORTS.getD port_id default).send)
      else
        (t, [])
  | none =>
      (t, PORTS.enum.flatMap fun ip =>
            if ip.1 ≠ curr_port ∧ ip.2.is_enabled = true then ip.2.send else [])

/-- Result of one iteration of the announcer loop body. -/
structure TickResult where
  info : BridgeInfo
  table : AddrTable
  sent : List Sent
  err : Option PyError
deriving DecidableEq

/-- One iteration of `send_bpdus_thread` (bridge.py:225-237): broadcast the
current belief, increment `unconfirmed`, and when the counter exceeds 2 run
the root-loss recovery branch.  That branch sets `root_id` and `next_hop` to
the bridge's own id and then evaluates `none` (bridge.py:234), an unbound
Python name, raising NameError: `root_port`, `cost` and the table keep their
old values and the iteration aborts.  (Had it gone further, the table-clear
loop calls `ADDR_TABLE.remove`, which dicts do not have.) -/
def send_bpdus_tick (PORTS : List Port) (ADDR_TABLE : AddrTable)
    (bridgeInfo : BridgeInfo) : TickResult :=
  let sent := send_bpdus PORTS bridgeInfo.root_id bridgeInfo.cost
  let bi := bridgeInfo.increase_unconfirmed
  if bi.unconfirmed > 2 then
    let bi2 := (bi.set_root_id bi.bridge_id).set_next_hop bi.bridge_id
    { info := bi2, table := ADDR_TABLE, sent := sent, err := some PyError.nameError }
  else
    { info := bi, table := ADDR_TABLE, sent := sent, err := none }

/-- First index of `v` in a list, `none` when absent (Python `list.index`,
which raises ValueError when absent). -/
def indexFrom : List Nat → Nat → Option Nat
  | [], _ => none
  | x :: xs, v => if x = v then some 0 else (indexFrom xs v).map (fun i => i + 1)

/-- `get_port_from_lan_port` (bridge.py:215): `args.lan_ports.index(lan_port)`. -/
def get_port_from_lan_port (lans : List Nat) (lan_port : Nat) : Except PyError Nat :=
  match indexFrom lans lan_port with
  | some i => Except.ok i
  | none => Except.error PyError.valueError

/-- The port-construction loop of `main` (bridge.py:347-348): port `i` is
built over the `i`-th LAN endpoint and is permanently disabled exactly when
`get_port_from_lan_port(lan_port) < i`, i.e. when the same endpoint already
appeared at an earlier position.  (The endpoint is an element of the list, so
the Python `.index` call cannot raise; the `getD` default is never used.) -/
def mkPorts (lans : List Nat) : List Port :=
  (List.range lans.length).map fun i =>
    Port.init i (lans.getD i 0)
      (decide ((indexFrom lans (lans.getD i 0)).getD lans.length < i))

/-- The mutable state shared by the event loop and the announcer. -/
structure Sys where
  ports : List Port
  table : AddrTable
  info : BridgeInfo
deriving DecidableEq

/-- The state at startup (bridge.py:336-348). -/
def startup (bridge_id : String) (lans : List Nat) : Sys :=
  { ports := mkPorts lans, table := [], info := BridgeInfo.init bridge_id }

/-- The BPDU branch of the main loop (bridge.py:369-373): run `update_bpdu`
and replace the table with an empty dict when it reports an update. -/
def stepCtrl (s : Sys) (msg_root : String) (msg_cost : Int) (msg_source : String)
    (curr_port : Nat) : Sys :=
  let r := update_bpdu msg_root msg_cost msg_source curr_port s.ports s.info
  { ports := r.ports, table := if r.updated then [] else s.table, info := r.info }

/-- One transition of the shared state: a BPDU processed by the event loop,
or one announcer iteration. -/
inductive BStep where
  | ctrl (msg_root : String) (msg_cost : Int) (msg_source : String) (curr_port : Nat)
  | tick

/-- Apply one transition (the announcer iteration keeps the partially
mutated fields that precede its NameError, as the shared state does). -/
def stepSys (s : Sys) : BStep → Sys
  | BStep.ctrl mr mc ms cp => stepCtrl s mr mc ms cp
  | BStep.tick =>
      let r := send_bpdus_tick s.ports s.table s.info
      { s with info := r.info, table := r.table }

/-- Run a sequence of transitions from a state. -/
def runSys (s : Sys) (steps : List BStep) : Sys :=
  steps.foldl stepSys s

/-- A transition is benign when it is a control frame that does not advertise
the bridge's own id as root, or an announcer iteration that does not trigger
the (crashing) root-loss recovery branch. -/
def goodStep (s : Sys) : BStep → Prop
  | BStep.ctrl msg_root _ _ _ => msg_root ≠ s.info.bridge_id
  | BStep.tick => s.info.unconfirmed + 1 ≤ 2

/-- Every transition of the trace is benign in the state where it fires. -/
def goodTrace : Sys → List BStep → Prop
  | _, [] => True
  | s, st :: rest => goodStep s st ∧ goodTrace (stepSys s st) rest

/-- The claimed self-root invariant: a bridge believing itself root has cost
0 and the root-port sentinel -1. -/
def rootSelfInv (s : Sys) : Prop :=
  s.info.root_id = s.info.bridge_id → s.info.cost = 0 ∧ s.info.root_port = -1

instance (s : Sys) (st : BStep) : Decidable (goodStep s st) := by
  cases st <;> (unfold goodStep; infer_instance)

instance goodTraceDec (s : Sys) (l : List BStep) : Decidable (goodTrace s l) :=
  match l with
  | [] => Decidable.isTrue trivial
  | st :: rest =>
      have : Decidable (goodTrace (stepSys s st) rest) := goodTraceDec (stepSys s st) rest
      instDecidableAnd

/-- The `message` sub-object of a decoded BPDU wire frame; each field is
`none` when the corresponding key is absent. -/
structure WireBpduMsg where
  id : Option String
  root : Option String
  cost : Option Int
  port : Option Int
deriving DecidableEq

/-- A decoded wire frame; each field is `none` when the key is absent. -/
structure WireMsg where
  source : Option String
  dest : Option String
  msg_id : Option Int
  type : Option String
  message : Option WireBpduMsg
deriving DecidableEq

/-- A Python dict subscript `d[k]`: KeyError when the key is absent. -/
def getItem {α : Type} (o : Option α) : Except PyError α :=
  match o with
  | some a => Except.ok a
  | none => Except.error PyError.keyError

/-- `json.loads(data)` (bridge.py:366): the raw datagram is modelled as
`some m` when it decodes to the object `m` and `none` when it is not valid
JSON, in which case Python raises `json.JSONDecodeError`. -/
def json_loads (data : Option WireMsg) : Except PyError WireMsg :=
  match data with
  | some m => Except.ok m
  | none => Except.error PyError.jsonDecodeError

/-- The body of the main event loop for one received datagram
(bridge.py:364-377): decode, resolve the ingress port from the sender's LAN
endpoint, then dispatch on `type`.  BPDUs go to `update_bpdu` (which first
subscripts `message`/`root`/`cost`/`source`); anything else is a data frame,
forwarded via `sending_data` when the ingress port is enabled (the prints
first subscript `source`/`msg_id`/`dest`).  There is no exception handler in
the source: any raised error propagates out of the loop. -/
def process_datagram (lans : List Nat) (s : Sys) (data : Option WireMsg)
    (addr_port : Nat) : Except PyError Sys := do
  let message ← json_loads data
  let curr_port ← get_port_from_lan_port lans addr_port
  let ty ← getItem message.type
  if ty = "bpdu" then
    let m ← getItem message.message
    let msg_root ← getItem m.root
    let msg_cost ← getItem m.cost
    let msg_source ← getItem message.source
    let r := update_bpdu msg_root msg_cost msg_source curr_port s.ports s.info
    pure { ports := r.ports, table := if r.updated then [] else s.table, info := r.info }
  else
    if (s.ports.getD curr_port default).is_enabled = true then
      let msg_source ← getItem message.source
      let _ ← getItem message.msg_id
      let msg_dest ← getItem message.dest
      let r := sending_data msg_source msg_dest curr_port s.ports s.table
      pure { s with table := r.1 }
    else
      pure s

lemma exceptBind_ok {α β : Type} (a : α) (f : α → Except PyError β) :
    (Except.ok a >>= f) = f a := rfl

lemma exceptBind_err {α β : Type} (e : PyError) (f : α → Except PyError β) :
    ((Except.error e : Except PyError α) >>= f) = Except.error e := rfl

lemma tableLookup_nil (k : String) : tableLookup [] k = none := rfl

lemma tableLookup_append_self (t : AddrTable) (k : String) (v : Nat)
    (h : tableLookup t k = none) : tableLookup (t ++ [(k, v)]) k = some v := by
  induction t with
  | nil => simp [tableLookup, List.find?]
  | cons e t ih =>
      simp only [tableLookup, List.find?, List.cons_append] at h ⊢
      cases he : (e.1 == k) with
      | true => simp [he] at h
      | false =>
          simp only [he] at h ⊢
          exact ih h

/-- The table returned by `sending_data` is exactly the input table with the
first-sight learning step applied; the lookup/relay phase never writes. -/
lemma sending_data_table (msg_source msg_dest : String) (curr_port : Nat)
    (PORTS : List Port) (t : AddrTable) :
    (sending_data msg_source msg_dest curr_port PORTS t).1
      = if (tableLookup t msg_source).isSome then t
        else t ++ [(msg_source, curr_port)] := by
  unfold sending_data
  split <;>
  · dsimp only
    split
    · split
      · rfl
      · rfl
    · rfl

/-- The transmissions of `sending_data` as a function of the post-learning
table lookup. -/
lemma sending_data_sends (msg_source msg_dest : String) (curr_port : Nat)
    (PORTS : List Port) (t : AddrTable) :
    (sending_data msg_source msg_dest curr_port PORTS t).2
      = match tableLookup (sending_data msg_source msg_dest curr_port PORTS t).1 msg_dest with
        | some port_id =>
            if port_id ≠ curr_port ∧ (PORTS.getD port_id default).is_enabled = true then
              (PORTS.getD port_id default).send
            else []
        | none => PORTS.enum.flatMap fun ip =>
            if ip.1 ≠ curr_port ∧ ip.2.is_enabled = true then ip.2.send else [] := by
  rw [sending_data_table]
  unfold sending_data
  dsimp only
  cases htl : tableLookup (if (tableLookup t msg_source).isSome = true then t
      else t ++ [(msg_source, curr_port)]) msg_dest with
  | some pid =>
      dsimp only
      split
      · rfl
      · rfl
  | none => rfl

lemma lexLt_irrefl : ∀ l : List Char, lexLt l l = false
  | [] => rfl
  | a :: as => by simp [lexLt, lexLt_irrefl as]

lemma pyLt_irrefl (s : String) : pyLt s s = false :=
  lexLt_irrefl s.data

lemma update_min_cost_min (p : Port) (c : Int) :
    (p.update_min_cost c).min_cost = min p.min_cost c := by
  unfold Port.update_min_cost
  split
  · dsimp only
    omega
  · omega

lemma update_min_cost_perm (p : Port) (c : Int) :
    (p.update_min_cost c).permanently_disabled = p.permanently_disabled := by
  unfold Port.update_min_cost
  split <;> rfl

lemma set_min_cost_proj (p : Port) (c : Int) :
    (p.set_min_cost c).min_cost = c
    ∧ (p.set_min_cost c).permanently_disabled = p.permanently_disabled
    ∧ (p.set_min_cost c).id = p.id
    ∧ (p.set_min_cost c).lan_port = p.lan_port
    ∧ (p.set_min_cost c).enabled = p.enabled :=
  ⟨rfl, rfl, rfl, rfl, rfl⟩

lemma designated_update_length (msg_root : String) (msg_cost : Int) (msg_source : String)
    (curr_port : Nat) (ports : List Port) (bi : BridgeInfo) :
    (designated_update msg_root msg_cost msg_source curr_port ports bi).length
      = ports.length := by
  unfold designated_update
  split
  · split
    · simp
    · rfl
  · rfl

lemma designated_update_other (msg_root : String) (msg_cost : Int) (msg_source : String)
    (curr_port : Nat) (ports : List Port) (bi : BridgeInfo) (i : Nat) (hne : i ≠ curr_port)
    (hi : i < ports.length)
    (hi2 : i < (designated_update msg_root msg_cost msg_source curr_port ports bi).length) :
    (designated_update msg_root msg_cost msg_source curr_port ports bi).get ⟨i, hi2⟩
      = ports.get ⟨i, hi⟩ := by
  have hq : (designated_update msg_root msg_cost msg_source curr_port ports bi).get? i
      = ports.get? i := by
    unfold designated_update
    split
    · cases hg : ports.get? curr_port with
      | some p =>
          dsimp only
          simp only [List.get?_eq_getElem?]
          exact List.getElem?_set_ne (fun h => hne h.symm)
      | none => rfl
    · rfl
  simp only [List.get?_eq_getElem?] at hq
  have h1 := List.getElem?_eq_getElem hi2
  have h2 := List.getElem?_eq_getElem hi
  rw [h1, h2] at hq
  simp only [List.get_eq_getElem]
  exact Option.some.inj hq

/-- The ingress port after the trailing block of `update_bpdu`, when the
advertised root matches and the port is in range: its `min_cost` is lowered
by the advertised cost, `permanently_disabled` is unchanged, and for a
non-permanently-disabled port the `enabled` flag becomes exactly the
designated-port condition of bridge.py:297-300. -/
lemma designated_update_get_curr (msg_root : String) (msg_cost : Int) (msg_source : String)
    (curr_port : Nat) (ports : List Port) (bi : BridgeInfo)
    (hcp : curr_port < ports.length) (hmr : msg_root = bi.root_id)
    (h2 : curr_port < (designated_update msg_root msg_cost msg_source curr_port ports bi).length) :
    (designated_update msg_root msg_cost msg_source curr_port ports bi).get ⟨curr_port, h2⟩
      = (let p1 := (ports.get ⟨curr_port, hcp⟩).update_min_cost msg_cost
         if p1.permanently_disabled = false ∧
             (p1.min_cost ≥ bi.cost + 1
               ∨ (p1.min_cost = bi.cost ∧ pyGe msg_source bi.bridge_id = true)
               ∨ (p1.min_cost = bi.cost - 1 ∧ (curr_port : Int) = bi.root_port)) then
           if p1.is_enabled = true then p1 else p1.set_enabled true
         else
           if p1.is_enabled = true then p1.set_enabled false else p1) := by
  have hq : (designated_update msg_root msg_cost msg_source curr_port ports bi).get? curr_port
      = some (let p1 := (ports.get ⟨curr_port, hcp⟩).update_min_cost msg_cost
              if p1.permanently_disabled = false ∧
                  (p1.min_cost ≥ bi.cost + 1
                    ∨ (p1.min_cost = bi.cost ∧ pyGe msg_source bi.bridge_id = true)
                    ∨ (p1.min_cost = bi.cost - 1 ∧ (curr_port : Int) = bi.root_port)) then
                if p1.is_enabled = true then p1 else p1.set_enabled true
              else
                if p1.is_enabled = true then p1.set_enabled false else p1) := by
    unfold designated_update
    rw [if_pos hmr]
    have hget : ports.get? curr_port = some (ports.get ⟨curr_port, hcp⟩) := by
      simp
    rw [hget]
    dsimp only
    simp [List.getElem?_set_self hcp]
  simp only [List.get?_eq_getElem?] at hq
  have h1 := List.getElem?_eq_getElem h2
  rw [h1] at hq
  simp only [List.get_eq_getElem]
  exact Option.some.inj hq

/-- The ingress port after the trailing block of `update_bpdu`, when the
advertised root matches and the port is in range: its `min_cost` is lowered
by the advertised cost, `permanently_disabled` is unchanged, and for a
non-permanently-disabled port the `enabled` flag becomes exactly the
designated-port condition of bridge.py:297-300. -/
lemma designated_update_curr (msg_root : String) (msg_cost : Int) (msg_source : String)
    (curr_port : Nat) (ports : List Port) (bi : BridgeInfo)
    (hcp : curr_port < ports.length) (hmr : msg_root = bi.root_id)
    (h2 : curr_port < (designated_update msg_root msg_cost msg_source curr_port ports bi).length) :
    ((designated_update msg_root msg_cost msg_source curr_port ports bi).get ⟨curr_port, h2⟩).min_cost
        = ((ports.get ⟨curr_port, hcp⟩).update_min_cost msg_cost).min_cost
    ∧ ((designated_update msg_root msg_cost msg_source curr_port ports bi).get ⟨curr_port, h2⟩).permanently_disabled
        = (ports.get ⟨curr_port, hcp⟩).permanently_disabled
    ∧ ((ports.get ⟨curr_port, hcp⟩).permanently_disabled = false →
        ((designated_update msg_root msg_cost msg_source curr_port ports bi).get ⟨curr_port, h2⟩).enabled
          = decide (((ports.get ⟨curr_port, hcp⟩).update_min_cost msg_cost).min_cost ≥ bi.cost + 1
              ∨ (((ports.get ⟨curr_port, hcp⟩).update_min_cost msg_cost).min_cost = bi.cost
                  ∧ pyGe msg_source bi.bridge_id = true)
              ∨ (((ports.get ⟨curr_port, hcp⟩).update_min_cost msg_cost).min_cost = bi.cost - 1
                  ∧ (curr_port : Int) = bi.root_port))) := by
  rw [designated_update_get_curr msg_root msg_cost msg_source curr_port ports bi hcp hmr h2]
  dsimp only
  constructor
  · split
    · split <;> simp [Port.set_enabled]
    · split <;> simp [Port.set_enabled]
  constructor
  · split
    · split <;> simp [Port.set_enabled, update_min_cost_perm]
    · split <;> simp [Port.set_enabled, update_min_cost_perm]
  · intro hperm
    have hperm1 : ((ports.get ⟨curr_port, hcp⟩).update_min_cost msg_cost).permanently_disabled = false := by
      rw [update_min_cost_perm]
      exact hperm
    split
    · rename_i hcond
      rw [decide_eq_true_iff.mpr hcond.2]
      split
      · rename_i hen
        rw [Port.is_enabled, hperm1, Bool.not_false, Bool.and_true] at hen
        simpa using hen
      · simp [Port.set_enabled]
    · rename_i hcond
      rw [not_and] at hcond
      have hcond2 := hcond hperm1
      rw [decide_eq_false hcond2]
      split
      · simp [Port.set_enabled]
      · rename_i hen
        rw [Port.is_enabled, hperm1, Bool.not_false, Bool.and_true] at hen
        simp at hen
        simpa using hen

/-- The bridge info produced by `update_bpdu` when the frame wins adoption. -/
lemma update_bpdu_win_info (msg_root : String) (msg_cost : Int) (msg_source : String)
    (curr_port : Nat) (PORTS : List Port) (bi : BridgeInfo)
    (hb : better msg_root msg_cost msg_source bi) :
    (update_bpdu msg_root msg_cost msg_source curr_port PORTS bi).info
      = { bridge_id := bi.bridge_id,
          root_port := (curr_port : Int),
          root_id := if pyLt msg_root bi.root_id = true then msg_root else bi.root_id,
          cost := msg_cost + 1, next_hop := msg_source,
          unconfirmed := bi.unconfirmed }
    ∧ (update_bpdu msg_root msg_cost msg_source curr_port PORTS bi).updated = true := by
  unfold update_bpdu
  rw [if_pos hb]
  refine ⟨?_, rfl⟩
  by_cases hp : pyLt msg_root bi.root_id = true
  · simp [hp, BridgeInfo.set_root_id, BridgeInfo.set_cost, BridgeInfo.set_next_hop,
      BridgeInfo.set_root_port]
  · simp [hp, BridgeInfo.set_root_id, BridgeInfo.set_cost, BridgeInfo.set_next_hop,
      BridgeInfo.set_root_port]

/-- The port list and transmissions produced by `update_bpdu` when the frame
wins adoption. -/
lemma update_bpdu_win_ports (msg_root : String) (msg_cost : Int) (msg_source : String)
    (curr_port : Nat) (PORTS : List Port) (bi : BridgeInfo)
    (hb : better msg_root msg_cost msg_source bi) :
    (update_bpdu msg_root msg_cost msg_source curr_port PORTS bi).ports
      = designated_update msg_root msg_cost msg_source curr_port
          (PORTS.map fun p => if p.id ≠ curr_port then p.set_min_cost 999999
                              else p.set_min_cost (msg_cost + 1 - 1))
          ((update_bpdu msg_root msg_cost msg_source curr_port PORTS bi).info)
    ∧ (update_bpdu msg_root msg_cost msg_source curr_port PORTS bi).sent
      = send_bpdus (PORTS.map fun p => if p.id ≠ curr_port then p.set_min_cost 999999
                                       else p.set_min_cost (msg_cost + 1 - 1))
          ((update_bpdu msg_root msg_cost msg_source curr_port PORTS bi).info.root_id)
          ((update_bpdu msg_root msg_cost msg_source curr_port PORTS bi).info.cost) := by
  unfold update_bpdu
  rw [if_pos hb]
  exact ⟨rfl, rfl⟩

/-- When the frame does not win adoption, `update_bpdu` keeps the root
belief fields, reports no update, and only runs the trailing block. -/
lemma update_bpdu_no_win (msg_root : String) (msg_cost : Int) (msg_source : String)
    (curr_port : Nat) (PORTS : List Port) (bi : BridgeInfo)
    (hb : ¬ better msg_root msg_cost msg_source bi) :
    ((update_bpdu msg_root msg_cost msg_source curr_port PORTS bi).info.root_id = bi.root_id
      ∧ (update_bpdu msg_root msg_cost msg_source curr_port PORTS bi).info.cost = bi.cost
      ∧ (update_bpdu msg_root msg_cost msg_source curr_port PORTS bi).info.root_port = bi.root_port
      ∧ (update_bpdu msg_root msg_cost msg_source curr_port PORTS bi).info.bridge_id = bi.bridge_id
      ∧ (update_bpdu msg_root msg_cost msg_source curr_port PORTS bi).info.next_hop = bi.next_hop)
    ∧ (update_bpdu msg_root msg_cost msg_source curr_port PORTS bi).ports
        = designated_update msg_root msg_cost msg_source curr_port PORTS
            ((update_bpdu msg_root msg_cost msg_source curr_port PORTS bi).info)
    ∧ (update_bpdu msg_root msg_cost msg_source curr_port PORTS bi).updated = false := by
  unfold update_bpdu
  rw [if_neg hb]
  split
  · exact ⟨⟨rfl, rfl, rfl, rfl, rfl⟩, rfl, rfl⟩
  · exact ⟨⟨rfl, rfl, rfl, rfl, rfl⟩, rfl, rfl⟩

example : Port.init 0 8000 false = ⟨0, 8000, true, 0, false⟩ := by decide

example : pyLt "0001" "0002" = true := by decide

example : pyGe "0002" "0002" = true := by decide

example : ((BridgeInfo.init "0002").root_port = -1) := by decide

example : mkPorts [8000, 8001, 8000] = [⟨0, 8000, true, 0, false⟩, ⟨1, 8001, true, 0, false⟩, ⟨2, 8000, false, 0, true⟩] := by decide

example :
    (update_bpdu "0001" 0 "0001" 0 (mkPorts [8000, 8001]) (BridgeInfo.init "0002")).info.cost = 1 := by decide

example :
    (update_bpdu "0001" 0 "0001" 0 (mkPorts [8000, 8001]) (BridgeInfo.init "0002")).updated = true := by decide

/-- C1: contrary to the claim, the root-loss recovery transition does not
complete: on an announcer iteration that finds the liveness counter above the
threshold (here `unconfirmed` reaches 3 > 2), the code sets `root_id` and
`next_hop` to the bridge's own id and then raises NameError on the unbound
name `none` (bridge.py:234), so `root_port` is never set to the sentinel,
`cost` is never reset to 0, and the forwarding table is never cleared. -/
theorem C1_root_loss_recovery_raises :
    let r : TickResult := send_bpdus_tick (mkPorts [8000, 8001]) [("beef", 0)]
        { bridge_id := "0002", root_port := 0, root_id := "0001", cost := 1,
          next_hop := "0001", unconfirmed := 2 }
    r.err = some PyError.nameError
      ∧ r.info.root_id = "0002" ∧ r.info.next_hop = "0002"
      ∧ r.info.root_port = 0 ∧ r.info.cost = 1
      ∧ r.table = [("beef", 0)] := by
  decide

/-- C2 fails as stated: a datagram whose payload is not decodable as JSON is
not discarded; `json.loads` (bridge.py:366) raises an uncaught
JSONDecodeError that propagates out of the event loop. -/
theorem C2_counterexample :
    process_datagram [8000] (startup "0001" [8000]) none 8000
      = Except.error PyError.jsonDecodeError := rfl

/-- C2 (amended): a malformed datagram (not decodable as JSON, or missing
`type`, or a BPDU missing `message`, `message.root`, `message.cost` or
`source`) makes the event loop body raise an uncaught Python error instead of
discarding the frame and continuing. -/
theorem C2_amended (lans : List Nat) (s : Sys) (data : Option WireMsg) (addr_port : Nat)
    (hmal : data = none
      ∨ ∃ m, data = some m ∧
          (m.type = none
            ∨ (m.type = some "bpdu"
                ∧ (m.message = none
                    ∨ (∃ b, m.message = some b ∧ (b.root = none ∨ b.cost = none))
                    ∨ m.source = none)))) :
    ∃ e, process_datagram lans s data addr_port = Except.error e := by
  rcases hmal with rfl | ⟨m, rfl, hc⟩
  · exact ⟨PyError.jsonDecodeError, rfl⟩
  · unfold process_datagram
    cases hport : get_port_from_lan_port lans addr_port with
    | error e =>
        exact ⟨e, by simp [json_loads, exceptBind_ok, hport, exceptBind_err]⟩
    | ok cp =>
        rcases hc with hty | ⟨hty, hsub⟩
        · exact ⟨PyError.keyError,
            by simp [json_loads, exceptBind_ok, hport, hty, getItem, exceptBind_err]⟩
        · rcases hsub with hmsg | ⟨b, hb, hrb⟩ | hsrc
          · exact ⟨PyError.keyError,
              by simp [json_loads, exceptBind_ok, hport, hty, hmsg, getItem, exceptBind_err]⟩
          · rcases hrb with hr | hcost
            · exact ⟨PyError.keyError,
                by simp [json_loads, exceptBind_ok, hport, hty, hb, hr, getItem, exceptBind_err]⟩
            · cases hr : b.root with
              | none =>
                  exact ⟨PyError.keyError,
                    by simp [json_loads, exceptBind_ok, hport, hty, hb, hr, getItem, exceptBind_err]⟩
              | some rt =>
                  exact ⟨PyError.keyError,
                    by simp [json_loads, exceptBind_ok, hport, hty, hb, hr, hcost, getItem, exceptBind_err]⟩
          · cases hmsg : m.message with
            | none =>
                exact ⟨PyError.keyError,
                  by simp [json_loads, exceptBind_ok, hport, hty, hmsg, getItem, exceptBind_err]⟩
            | some b =>
                cases hr : b.root with
                | none =>
                    exact ⟨PyError.keyError,
                      by simp [json_loads, exceptBind_ok, hport, hty, hmsg, hr, getItem, exceptBind_err]⟩
                | some rt =>
                    cases hcost : b.cost with
                    | none =>
                        exact ⟨PyError.keyError,
                          by simp [json_loads, exceptBind_ok, hport, hty, hmsg, hr, hcost, getItem, exceptBind_err]⟩
                    | some c =>
                        exact ⟨PyError.keyError,
                          by simp [json_loads, exceptBind_ok, hport, hty, hmsg, hr, hcost, hsrc, getItem, exceptBind_err]⟩

/-- Witness for `C2_amended` at a concrete malformed datagram. -/
theorem C2_amended_witness :
    ∃ e, process_datagram [8000] (startup "0001" [8000])
        (some { source := none, dest := none, msg_id := none, type := none, message := none }) 8000
      = Except.error e :=
  C2_amended [8000] (startup "0001" [8000])
    (some { source := none, dest := none, msg_id := none, type := none, message := none }) 8000
    (Or.inr ⟨_, rfl, Or.inl rfl⟩)

/-- C5: the claim fails on the code.  With the belief root `"0001"`, cost 2,
next hop `"0005"`, a frame advertising (root `"0001"`, cost 1) from the
smaller sender `"0002"` has equal resulting cost (1 + 1 = 2) and a smaller
sender id, yet is not adopted (`updated = false`): bridge.py:268 compares the
un-incremented advertised cost (`msg_cost == cost`) in the rule-3 tie-break.
Conversely a frame advertising cost 2 from `"0002"` is adopted, raising the
bridge's cost from 2 to 3. -/
theorem C5_rule3_compares_unincremented_cost :
    let bi : BridgeInfo := { bridge_id := "0003", root_port := 1, root_id := "0001",
                             cost := 2, next_hop := "0005", unconfirmed := 0 }
    ((update_bpdu "0001" 1 "0002" 0 (mkPorts [8000, 8001]) bi).updated = false
      ∧ (update_bpdu "0001" 1 "0002" 0 (mkPorts [8000, 8001]) bi).info.next_hop = "0005"
      ∧ (update_bpdu "0001" 1 "0002" 0 (mkPorts [8000, 8001]) bi).info.cost = 2)
    ∧ ((update_bpdu "0001" 2 "0002" 0 (mkPorts [8000, 8001]) bi).updated = true
      ∧ (update_bpdu "0001" 2 "0002" 0 (mkPorts [8000, 8001]) bi).info.cost = 3) := by
  decide

/-- C6 fails as stated: from startup, a single control frame that advertises
the bridge's own id as root (equal root, advertised cost 0 equal to the
current cost, sender `"0001"` below the current next hop `"0002"`) wins the
rule-3 tie-break, after which `root_id = bridge_id` but `cost = 1` and
`root_port = 0` instead of the sentinel. -/
theorem C6_counterexample :
    let s := runSys (startup "0002" [8000, 8001]) [BStep.ctrl "0002" 0 "0001" 0]
    s.info.root_id = s.info.bridge_id
      ∧ ¬ (s.info.cost = 0 ∧ s.info.root_port = -1) := by
  decide

/-- C8 fails as stated: `min_cost` starts at 0 (bridge.py:137), not at the
999999 "infinity" sentinel, so before the first root-election reset it does
not equal the smallest advertised cost.  From startup of bridge `"0002"`,
one frame on port 0 advertising the current root with cost 5 leaves
`min_cost = 0`, while the smallest cost advertised on that attachment (the
fold of `min` over the advertisement history `[5]` starting from infinity)
is 5. -/
theorem C8_counterexample :
    let s := stepCtrl (startup "0002" [8000, 8001]) "0002" 5 "0009" 0
    (s.ports.getD 0 default).min_cost = 0
      ∧ (s.ports.getD 0 default).min_cost ≠ List.foldl min 999999 [5] := by
  decide

/-- C8 (amended): each `min_cost` update stores the minimum of the stored
value and the advertised cost and can never raise the stored value, so after
any sequence of advertisements a port's `min_cost` equals the minimum of its
value at the last reset and all costs advertised since; however a freshly
constructed port starts at 0, not at the 999999 "infinity" sentinel, so
"infinity when no advertisement has arrived" holds only for the values
installed by a root-election reset, not for the initial epoch. -/
theorem C8_amended (p : Port) (c : Int) (cs : List Int) :
    (p.update_min_cost c).min_cost = min p.min_cost c
    ∧ (p.update_min_cost c).min_cost ≤ p.min_cost
    ∧ (cs.foldl Port.update_min_cost p).min_cost = cs.foldl min p.min_cost
    ∧ (Port.init 0 0 false).min_cost = 0 := by
  have hupd : ∀ (q : Port) (d : Int), (q.update_min_cost d).min_cost = min q.min_cost d := by
    intro q d
    unfold Port.update_min_cost
    split
    · dsimp only
      omega
    · omega
  refine ⟨hupd p c, ?_, ?_, rfl⟩
  · rw [hupd]
    omega
  · induction cs generalizing p with
    | nil => rfl
    | cons d ds ih =>
        simp only [List.foldl_cons]
        rw [ih, hupd]

/-- C9: first-sight learning.  Processing a second data frame with the same
source (any destination, any ingress port, any port set) leaves the
forwarding table exactly as it was after the first processing, and the entry
recorded for the source is the pre-existing one when present, else the first
frame's ingress port — a later frame never overwrites it. -/
theorem C9_first_sight_learning (msg_source msg_dest msg_dest2 : String)
    (curr_port curr_port2 : Nat) (PORTS PORTS2 : List Port) (t : AddrTable) :
    (sending_data msg_source msg_dest2 curr_port2 PORTS2
        (sending_data msg_source msg_dest curr_port PORTS t).1).1
      = (sending_data msg_source msg_dest curr_port PORTS t).1
    ∧ tableLookup (sending_data msg_source msg_dest curr_port PORTS t).1 msg_source
      = some ((tableLookup t msg_source).getD curr_port) := by
  rw [sending_data_table, sending_data_table]
  cases hu : tableLookup t msg_source with
  | some v =>
      simp [hu]
  | none =>
      have happ := tableLookup_append_self t msg_source curr_port hu
      simp [hu, happ]

/-- C3: for a control frame whose advertised root equals the current root
(on a well-formed port list, with the reachable-state fact that the root
port's `min_cost` is `cost - 1`), the non-permanently-disabled ingress port
ends enabled if and only if it is the current root port, or its updated
`min_cost` is at least the local cost plus one, or its updated `min_cost`
equals the local cost and the sender's id is at least the bridge's own id. -/
theorem C3_designated_port_decision (msg_root : String) (msg_cost : Int) (msg_source : String)
    (curr_port : Nat) (PORTS : List Port) (bi : BridgeInfo)
    (hlen : curr_port < PORTS.length)
    (hid : ∀ i (hi : i < PORTS.length), (PORTS.get ⟨i, hi⟩).id = i)
    (hperm : (PORTS.get ⟨curr_port, hlen⟩).permanently_disabled = false)
    (hmr : msg_root = bi.root_id)
    (hinv : bi.root_port = (curr_port : Int) →
        (PORTS.get ⟨curr_port, hlen⟩).min_cost = bi.cost - 1) :
    ∀ h2 : curr_port < (update_bpdu msg_root msg_cost msg_source curr_port PORTS bi).ports.length,
      ((update_bpdu msg_root msg_cost msg_source curr_port PORTS bi).ports.get ⟨curr_port, h2⟩).is_enabled = true
        ↔ ((curr_port : Int) = (update_bpdu msg_root msg_cost msg_source curr_port PORTS bi).info.root_port
            ∨ ((update_bpdu msg_root msg_cost msg_source curr_port PORTS bi).ports.get ⟨curr_port, h2⟩).min_cost
                ≥ (update_bpdu msg_root msg_cost msg_source curr_port PORTS bi).info.cost + 1
            ∨ (((update_bpdu msg_root msg_cost msg_source curr_port PORTS bi).ports.get ⟨curr_port, h2⟩).min_cost
                = (update_bpdu msg_root msg_cost msg_source curr_port PORTS bi).info.cost
                ∧ pyGe msg_source bi.bridge_id = true)) := by
  intro h2
  by_cases hb : better msg_root msg_cost msg_source bi
  · -- the frame wins adoption: the ingress port becomes the root port
    obtain ⟨hinfo, _⟩ := update_bpdu_win_info msg_root msg_cost msg_source curr_port PORTS bi hb
    obtain ⟨hports, _⟩ := update_bpdu_win_ports msg_root msg_cost msg_source curr_port PORTS bi hb
    have hplt : pyLt msg_root bi.root_id = false := by
      rw [hmr, pyLt_irrefl]
    have hroot2 : msg_root = (update_bpdu msg_root msg_cost msg_source curr_port PORTS bi).info.root_id := by
      rw [hinfo]
      simp [hplt, hmr]
    have hcost2 : (update_bpdu msg_root msg_cost msg_source curr_port PORTS bi).info.cost = msg_cost + 1 := by
      rw [hinfo]
    have hrp2 : (update_bpdu msg_root msg_cost msg_source curr_port PORTS bi).info.root_port = (curr_port : Int) := by
      rw [hinfo]
    have hcpm : curr_port < (PORTS.map fun p => if p.id ≠ curr_port then p.set_min_cost 999999
        else p.set_min_cost (msg_cost + 1 - 1)).length := by
      simp [hlen]
    have hd2 : curr_port < (designated_update msg_root msg_cost msg_source curr_port
        (PORTS.map fun p => if p.id ≠ curr_port then p.set_min_cost 999999
          else p.set_min_cost (msg_cost + 1 - 1))
        ((update_bpdu msg_root msg_cost msg_source curr_port PORTS bi).info)).length := by
      rw [designated_update_length]
      exact hcpm
    have hget : (update_bpdu msg_root msg_cost msg_source curr_port PORTS bi).ports.get ⟨curr_port, h2⟩
        = (designated_update msg_root msg_cost msg_source curr_port
            (PORTS.map fun p => if p.id ≠ curr_port then p.set_min_cost 999999
              else p.set_min_cost (msg_cost + 1 - 1))
            ((update_bpdu msg_root msg_cost msg_source curr_port PORTS bi).info)).get ⟨curr_port, hd2⟩ := by
      simp only [List.get_eq_getElem]
      exact List.getElem_of_eq hports h2
    have hmget : (PORTS.map fun p => if p.id ≠ curr_port then p.set_min_cost 999999
        else p.set_min_cost (msg_cost + 1 - 1)).get ⟨curr_port, hcpm⟩
        = (PORTS.get ⟨curr_port, hlen⟩).set_min_cost (msg_cost + 1 - 1) := by
      have hidc := hid curr_port hlen
      simp only [List.get_eq_getElem] at hidc
      simp only [List.get_eq_getElem, List.getElem_map]
      rw [if_neg (by simp [hidc])]
    obtain ⟨hmin, hpdis, hen⟩ := designated_update_curr msg_root msg_cost msg_source curr_port
      (PORTS.map fun p => if p.id ≠ curr_port then p.set_min_cost 999999
        else p.set_min_cost (msg_cost + 1 - 1))
      ((update_bpdu msg_root msg_cost msg_source curr_port PORTS bi).info) hcpm hroot2 hd2
    rw [hmget] at hmin hpdis hen
    have hperm2 : ((PORTS.get ⟨curr_port, hlen⟩).set_min_cost (msg_cost + 1 - 1)).permanently_disabled = false := by
      rw [(set_min_cost_proj (PORTS.get ⟨curr_port, hlen⟩) (msg_cost + 1 - 1)).2.1]
      exact hperm
    have hmin1 : (((PORTS.get ⟨curr_port, hlen⟩).set_min_cost (msg_cost + 1 - 1)).update_min_cost msg_cost).min_cost
        = msg_cost := by
      rw [update_min_cost_min, (set_min_cost_proj (PORTS.get ⟨curr_port, hlen⟩) (msg_cost + 1 - 1)).1]
      omega
    have hen2 := hen hperm2
    rw [hmin1] at hen2
    have hcond : (msg_cost ≥ (update_bpdu msg_root msg_cost msg_source curr_port PORTS bi).info.cost + 1
        ∨ (msg_cost = (update_bpdu msg_root msg_cost msg_source curr_port PORTS bi).info.cost
            ∧ pyGe msg_source ((update_bpdu msg_root msg_cost msg_source curr_port PORTS bi).info.bridge_id) = true)
        ∨ (msg_cost = (update_bpdu msg_root msg_cost msg_source curr_port PORTS bi).info.cost - 1
            ∧ (curr_port : Int) = (update_bpdu msg_root msg_cost msg_source curr_port PORTS bi).info.root_port)) := by
      refine Or.inr (Or.inr ⟨?_, ?_⟩)
      · rw [hcost2]
        omega
      · rw [hrp2]
    rw [decide_eq_true_iff.mpr hcond] at hen2
    constructor
    · intro _
      exact Or.inl hrp2.symm
    · intro _
      rw [hget, Port.is_enabled, hen2]
      rw [hpdis, hperm2]
      rfl
  · -- the frame does not win adoption
    obtain ⟨⟨hroot, hcost, hrp, hbid, _⟩, hports, _⟩ :=
      update_bpdu_no_win msg_root msg_cost msg_source curr_port PORTS bi hb
    have hroot2 : msg_root = (update_bpdu msg_root msg_cost msg_source curr_port PORTS bi).info.root_id := by
      rw [hroot]
      exact hmr
    have hd2 : curr_port < (designated_update msg_root msg_cost msg_source curr_port PORTS
        ((update_bpdu msg_root msg_cost msg_source curr_port PORTS bi).info)).length := by
      rw [designated_update_length]
      exact hlen
    have hget : (update_bpdu msg_root msg_cost msg_source curr_port PORTS bi).ports.get ⟨curr_port, h2⟩
        = (designated_update msg_root msg_cost msg_source curr_port PORTS
            ((update_bpdu msg_root msg_cost msg_source curr_port PORTS bi).info)).get ⟨curr_port, hd2⟩ := by
      simp only [List.get_eq_getElem]
      exact List.getElem_of_eq hports h2
    obtain ⟨hmin, hpdis, hen⟩ := designated_update_curr msg_root msg_cost msg_source curr_port PORTS
      ((update_bpdu msg_root msg_cost msg_source curr_port PORTS bi).info) hlen hroot2 hd2
    have hen2 := hen hperm
    have hnb : ¬ (msg_cost + 1 < bi.cost) := by
      intro hlt
      exact hb (Or.inr (Or.inl ⟨hmr, hlt⟩))
    have hminval : (((PORTS.get ⟨curr_port, hlen⟩).update_min_cost msg_cost).min_cost)
        = min (PORTS.get ⟨curr_port, hlen⟩).min_cost msg_cost := update_min_cost_min _ _
    rw [hget, Port.is_enabled, hpdis, hperm, hen2, hmin, hcost, hrp, hbid]
    constructor
    · intro hcode
      simp only [Bool.and_true, Bool.not_false] at hcode
      rw [decide_eq_true_iff] at hcode
      rcases hcode with hc1 | hc2 | hc3
      · exact Or.inr (Or.inl hc1)
      · exact Or.inr (Or.inr hc2)
      · exact Or.inl hc3.2
    · intro hclaim
      simp only [Bool.and_true, Bool.not_false]
      rw [decide_eq_true_iff]
      rcases hclaim with hc1 | hc2 | hc3
      · refine Or.inr (Or.inr ⟨?_, hc1⟩)
        rw [hminval, hinv hc1.symm]
        omega
      · exact Or.inl hc2
      · exact Or.inr (Or.inl hc3)

/-- Witness for `C3_designated_port_decision`: a reconfirming frame
(advertised cost 3 for root `"0001"` at local cost 2) on ingress port 0 of a
bridge with root port sentinel -1; the port stays enabled and the iff holds. -/
theorem C3_designated_witness :
    ((update_bpdu "0001" 3 "0007" 0 (mkPorts [8000, 8001])
        { bridge_id := "0004", root_port := -1, root_id := "0001", cost := 2,
          next_hop := "0003", unconfirmed := 0 }).ports.get ⟨0, by decide⟩).is_enabled = true
      ↔ (((0 : Nat) : Int) = (update_bpdu "0001" 3 "0007" 0 (mkPorts [8000, 8001])
            { bridge_id := "0004", root_port := -1, root_id := "0001", cost := 2,
              next_hop := "0003", unconfirmed := 0 }).info.root_port
          ∨ ((update_bpdu "0001" 3 "0007" 0 (mkPorts [8000, 8001])
              { bridge_id := "0004", root_port := -1, root_id := "0001", cost := 2,
                next_hop := "0003", unconfirmed := 0 }).ports.get ⟨0, by decide⟩).min_cost
              ≥ (update_bpdu "0001" 3 "0007" 0 (mkPorts [8000, 8001])
                  { bridge_id := "0004", root_port := -1, root_id := "0001", cost := 2,
                    next_hop := "0003", unconfirmed := 0 }).info.cost + 1
          ∨ (((update_bpdu "0001" 3 "0007" 0 (mkPorts [8000, 8001])
                { bridge_id := "0004", root_port := -1, root_id := "0001", cost := 2,
                  next_hop := "0003", unconfirmed := 0 }).ports.get ⟨0, by decide⟩).min_cost
              = (update_bpdu "0001" 3 "0007" 0 (mkPorts [8000, 8001])
                  { bridge_id := "0004", root_port := -1, root_id := "0001", cost := 2,
                    next_hop := "0003", unconfirmed := 0 }).info.cost
              ∧ pyGe "0007" "0004" = true)) :=
  C3_designated_port_decision "0001" 3 "0007" 0 (mkPorts [8000, 8001])
    { bridge_id := "0004", root_port := -1, root_id := "0001", cost := 2,
      next_hop := "0003", unconfirmed := 0 }
    (by decide) (by decide) (by decide) rfl (by decide) (by decide)

/-- C4: when a control frame is judged strictly better, `update_bpdu` sets
cost to the advertised cost plus one, next hop to the sender, root port to
the ingress port, adopts the advertised root exactly when rule 1 (strictly
lower advertised root) fired, resets every other port's `min_cost` to the
999999 infinity sentinel while the ingress port's becomes the new cost minus
one, broadcasts the new belief on every non-permanently-disabled port, and
reports the update, upon which the main loop empties the forwarding table. -/
theorem C4_adoption_effects (msg_root : String) (msg_cost : Int) (msg_source : String)
    (curr_port : Nat) (PORTS : List Port) (bi : BridgeInfo) (table : AddrTable)
    (hlen : curr_port < PORTS.length)
    (hid : ∀ i (hi : i < PORTS.length), (PORTS.get ⟨i, hi⟩).id = i)
    (hb : better msg_root msg_cost msg_source bi) :
    (update_bpdu msg_root msg_cost msg_source curr_port PORTS bi).info.cost = msg_cost + 1
    ∧ (update_bpdu msg_root msg_cost msg_source curr_port PORTS bi).info.next_hop = msg_source
    ∧ (update_bpdu msg_root msg_cost msg_source curr_port PORTS bi).info.root_port = (curr_port : Int)
    ∧ (update_bpdu msg_root msg_cost msg_source curr_port PORTS bi).info.root_id
        = (if pyLt msg_root bi.root_id = true then msg_root else bi.root_id)
    ∧ (update_bpdu msg_root msg_cost msg_source curr_port PORTS bi).ports.length = PORTS.length
    ∧ (∀ i (hi : i < (update_bpdu msg_root msg_cost msg_source curr_port PORTS bi).ports.length),
        i ≠ curr_port →
        ((update_bpdu msg_root msg_cost msg_source curr_port PORTS bi).ports.get ⟨i, hi⟩).min_cost = 999999)
    ∧ (∀ hc : curr_port < (update_bpdu msg_root msg_cost msg_source curr_port PORTS bi).ports.length,
        ((update_bpdu msg_root msg_cost msg_source curr_port PORTS bi).ports.get ⟨curr_port, hc⟩).min_cost
          = (update_bpdu msg_root msg_cost msg_source curr_port PORTS bi).info.cost - 1)
    ∧ (∀ i (hi : i < PORTS.length), (PORTS.get ⟨i, hi⟩).permanently_disabled = false →
        ({ lan_port := (PORTS.get ⟨i, hi⟩).lan_port, port_id := (PORTS.get ⟨i, hi⟩).id,
           root := (update_bpdu msg_root msg_cost msg_source curr_port PORTS bi).info.root_id,
           cost := (update_bpdu msg_root msg_cost msg_source curr_port PORTS bi).info.cost } : Sent)
          ∈ (update_bpdu msg_root msg_cost msg_source curr_port PORTS bi).sent)
    ∧ (update_bpdu msg_root msg_cost msg_source curr_port PORTS bi).updated = true
    ∧ (stepCtrl { ports := PORTS, table := table, info := bi } msg_root msg_cost msg_source curr_port).table = [] := by
  obtain ⟨hinfo, hupd⟩ := update_bpdu_win_info msg_root msg_cost msg_source curr_port PORTS bi hb
  obtain ⟨hports, hsent⟩ := update_bpdu_win_ports msg_root msg_cost msg_source curr_port PORTS bi hb
  have hroot2 : msg_root = (update_bpdu msg_root msg_cost msg_source curr_port PORTS bi).info.root_id := by
    rw [hinfo]
    by_cases hp : pyLt msg_root bi.root_id = true
    · simp [hp]
    · simp only [hp]
      rcases hb with h1 | h2 | h3
      · exact absurd h1 hp
      · simpa using h2.1
      · simpa using h3.1
  have hcost2 : (update_bpdu msg_root msg_cost msg_source curr_port PORTS bi).info.cost = msg_cost + 1 := by
    rw [hinfo]
  have hcpm : curr_port < (PORTS.map fun (p : Port) => if p.id ≠ curr_port then p.set_min_cost 999999
      else p.set_min_cost (msg_cost + 1 - 1)).length := by
    simp [hlen]
  refine ⟨hcost2, by rw [hinfo], by rw [hinfo], by rw [hinfo], ?_, ?_, ?_, ?_, hupd, ?_⟩
  · rw [hports, designated_update_length]
    simp
  · intro i hi hne
    have hi1 : i < PORTS.length := by
      rw [hports, designated_update_length] at hi
      simpa using hi
    have him : i < (PORTS.map fun (p : Port) => if p.id ≠ curr_port then p.set_min_cost 999999
        else p.set_min_cost (msg_cost + 1 - 1)).length := by
      simp [hi1]
    have hdlen : i < (designated_update msg_root msg_cost msg_source curr_port
        (PORTS.map fun (p : Port) => if p.id ≠ curr_port then p.set_min_cost 999999
          else p.set_min_cost (msg_cost + 1 - 1))
        ((update_bpdu msg_root msg_cost msg_source curr_port PORTS bi).info)).length := by
      rw [designated_update_length]
      exact him
    have hg1 : (update_bpdu msg_root msg_cost msg_source curr_port PORTS bi).ports.get ⟨i, hi⟩
        = (designated_update msg_root msg_cost msg_source curr_port
            (PORTS.map fun (p : Port) => if p.id ≠ curr_port then p.set_min_cost 999999
              else p.set_min_cost (msg_cost + 1 - 1))
            ((update_bpdu msg_root msg_cost msg_source curr_port PORTS bi).info)).get ⟨i, hdlen⟩ := by
      simp only [List.get_eq_getElem]
      exact List.getElem_of_eq hports hi
    rw [hg1, designated_update_other _ _ _ _ _ _ i hne him hdlen]
    have hidc := hid i hi1
    simp only [List.get_eq_getElem] at hidc ⊢
    simp only [List.getElem_map]
    rw [if_pos (by simp [hidc, hne])]
    rfl
  · intro hc
    have hdlen : curr_port < (designated_update msg_root msg_cost msg_source curr_port
        (PORTS.map fun (p : Port) => if p.id ≠ curr_port then p.set_min_cost 999999
          else p.set_min_cost (msg_cost + 1 - 1))
        ((update_bpdu msg_root msg_cost msg_source curr_port PORTS bi).info)).length := by
      rw [designated_update_length]
      exact hcpm
    have hg1 : (update_bpdu msg_root msg_cost msg_source curr_port PORTS bi).ports.get ⟨curr_port, hc⟩
        = (designated_update msg_root msg_cost msg_source curr_port
            (PORTS.map fun (p : Port) => if p.id ≠ curr_port then p.set_min_cost 999999
              else p.set_min_cost (msg_cost + 1 - 1))
            ((update_bpdu msg_root msg_cost msg_source curr_port PORTS bi).info)).get ⟨curr_port, hdlen⟩ := by
      simp only [List.get_eq_getElem]
      exact List.getElem_of_eq hports hc
    obtain ⟨hmin, _, _⟩ := designated_update_curr msg_root msg_cost msg_source curr_port
      (PORTS.map fun (p : Port) => if p.id ≠ curr_port then p.set_min_cost 999999
        else p.set_min_cost (msg_cost + 1 - 1))
      ((update_bpdu msg_root msg_cost msg_source curr_port PORTS bi).info) hcpm hroot2 hdlen
    have hmget : (PORTS.map fun (p : Port) => if p.id ≠ curr_port then p.set_min_cost 999999
        else p.set_min_cost (msg_cost + 1 - 1)).get ⟨curr_port, hcpm⟩
        = (PORTS.get ⟨curr_port, hlen⟩).set_min_cost (msg_cost + 1 - 1) := by
      have hidc := hid curr_port hlen
      simp only [List.get_eq_getElem] at hidc
      simp only [List.get_eq_getElem, List.getElem_map]
      rw [if_neg (by simp [hidc])]
    rw [hg1, hmin, hmget, update_min_cost_min,
      (set_min_cost_proj (PORTS.get ⟨curr_port, hlen⟩) (msg_cost + 1 - 1)).1, hcost2]
    omega
  · intro i hi hpd
    rw [hsent]
    have him : i < (PORTS.map fun (p : Port) => if p.id ≠ curr_port then p.set_min_cost 999999
        else p.set_min_cost (msg_cost + 1 - 1)).length := by
      simp [hi]
    have hmem : (PORTS.map fun (p : Port) => if p.id ≠ curr_port then p.set_min_cost 999999
        else p.set_min_cost (msg_cost + 1 - 1)).get ⟨i, him⟩
        ∈ (PORTS.map fun (p : Port) => if p.id ≠ curr_port then p.set_min_cost 999999
            else p.set_min_cost (msg_cost + 1 - 1)) := List.get_mem _ _ _
    have hproj : ((PORTS.map fun (p : Port) => if p.id ≠ curr_port then p.set_min_cost 999999
        else p.set_min_cost (msg_cost + 1 - 1)).get ⟨i, him⟩).lan_port = (PORTS.get ⟨i, hi⟩).lan_port
        ∧ ((PORTS.map fun (p : Port) => if p.id ≠ curr_port then p.set_min_cost 999999
            else p.set_min_cost (msg_cost + 1 - 1)).get ⟨i, him⟩).id = (PORTS.get ⟨i, hi⟩).id
        ∧ ((PORTS.map fun (p : Port) => if p.id ≠ curr_port then p.set_min_cost 999999
            else p.set_min_cost (msg_cost + 1 - 1)).get ⟨i, him⟩).permanently_disabled
            = (PORTS.get ⟨i, hi⟩).permanently_disabled := by
      simp only [List.get_eq_getElem, List.getElem_map]
      split <;> exact ⟨rfl, rfl, rfl⟩
    unfold send_bpdus
    rw [List.mem_flatMap]
    refine ⟨_, hmem, ?_⟩
    unfold Port.send_bpdu
    rw [hproj.2.2, hpd]
    simp only [Bool.false_eq_true, if_false]
    rw [hproj.1, hproj.2.1]
    exact List.mem_singleton.mpr rfl
  · unfold stepCtrl
    dsimp only
    rw [hupd]
    rfl

/-- Witness for `C4_adoption_effects`: bridge `"0003"` at startup adopting
root `"0001"` advertised at cost 0 by sender `"0001"` on port 0. -/
theorem C4_adoption_witness :
    (update_bpdu "0001" 0 "0001" 0 (mkPorts [8000, 8001]) (BridgeInfo.init "0003")).info.cost = 0 + 1
    ∧ (update_bpdu "0001" 0 "0001" 0 (mkPorts [8000, 8001]) (BridgeInfo.init "0003")).info.next_hop = "0001"
    ∧ (update_bpdu "0001" 0 "0001" 0 (mkPorts [8000, 8001]) (BridgeInfo.init "0003")).info.root_port = ((0 : Nat) : Int)
    ∧ (update_bpdu "0001" 0 "0001" 0 (mkPorts [8000, 8001]) (BridgeInfo.init "0003")).info.root_id
        = (if pyLt "0001" (BridgeInfo.init "0003").root_id = true then "0001" else (BridgeInfo.init "0003").root_id)
    ∧ (update_bpdu "0001" 0 "0001" 0 (mkPorts [8000, 8001]) (BridgeInfo.init "0003")).ports.length
        = (mkPorts [8000, 8001]).length
    ∧ (∀ i (hi : i < (update_bpdu "0001" 0 "0001" 0 (mkPorts [8000, 8001]) (BridgeInfo.init "0003")).ports.length),
        i ≠ 0 →
        ((update_bpdu "0001" 0 "0001" 0 (mkPorts [8000, 8001]) (BridgeInfo.init "0003")).ports.get ⟨i, hi⟩).min_cost = 999999)
    ∧ (∀ hc : 0 < (update_bpdu "0001" 0 "0001" 0 (mkPorts [8000, 8001]) (BridgeInfo.init "0003")).ports.length,
        ((update_bpdu "0001" 0 "0001" 0 (mkPorts [8000, 8001]) (BridgeInfo.init "0003")).ports.get ⟨0, hc⟩).min_cost
          = (update_bpdu "0001" 0 "0001" 0 (mkPorts [8000, 8001]) (BridgeInfo.init "0003")).info.cost - 1)
    ∧ (∀ i (hi : i < (mkPorts [8000, 8001]).length),
        ((mkPorts [8000, 8001]).get ⟨i, hi⟩).permanently_disabled = false →
        ({ lan_port := ((mkPorts [8000, 8001]).get ⟨i, hi⟩).lan_port,
           port_id := ((mkPorts [8000, 8001]).get ⟨i, hi⟩).id,
           root := (update_bpdu "0001" 0 "0001" 0 (mkPorts [8000, 8001]) (BridgeInfo.init "0003")).info.root_id,
           cost := (update_bpdu "0001" 0 "0001" 0 (mkPorts [8000, 8001]) (BridgeInfo.init "0003")).info.cost } : Sent)
          ∈ (update_bpdu "0001" 0 "0001" 0 (mkPorts [8000, 8001]) (BridgeInfo.init "0003")).sent)
    ∧ (update_bpdu "0001" 0 "0001" 0 (mkPorts [8000, 8001]) (BridgeInfo.init "0003")).updated = true
    ∧ (stepCtrl { ports := mkPorts [8000, 8001], table := [("aa", 1)], info := BridgeInfo.init "0003" }
        "0001" 0 "0001" 0).table = [] :=
  C4_adoption_effects "0001" 0 "0001" 0 (mkPorts [8000, 8001]) (BridgeInfo.init "0003")
    [("aa", 1)] (by decide) (by decide) (Or.inl (by decide))

lemma rootInv_stepCtrl (s : Sys) (msg_root : String) (msg_cost : Int) (msg_source : String)
    (curr_port : Nat) (hg : msg_root ≠ s.info.bridge_id) (hi : rootSelfInv s) :
    rootSelfInv (stepCtrl s msg_root msg_cost msg_source curr_port) := by
  unfold rootSelfInv stepCtrl
  dsimp only
  by_cases hb : better msg_root msg_cost msg_source s.info
  · obtain ⟨hinfo, _⟩ := update_bpdu_win_info msg_root msg_cost msg_source curr_port s.ports s.info hb
    rw [hinfo]
    dsimp only
    intro hroot
    by_cases hp : pyLt msg_root s.info.root_id = true
    · rw [if_pos hp] at hroot
      exact absurd hroot hg
    · rw [if_neg hp] at hroot
      rcases hb with h1 | h2 | h3
      · exact absurd h1 hp
      · exact absurd (h2.1.trans hroot) hg
      · exact absurd (h3.1.trans hroot) hg
  · obtain ⟨⟨hroot, hcost, hrp, hbid, _⟩, _, _⟩ :=
      update_bpdu_no_win msg_root msg_cost msg_source curr_port s.ports s.info hb
    rw [hroot, hcost, hrp, hbid]
    exact hi

lemma rootInv_stepTick (s : Sys) (hg : s.info.unconfirmed + 1 ≤ 2) (hi : rootSelfInv s) :
    rootSelfInv (stepSys s BStep.tick) := by
  unfold rootSelfInv stepSys send_bpdus_tick
  dsimp only
  rw [if_neg (by
    show ¬ ((s.info.increase_unconfirmed).unconfirmed > 2)
    unfold BridgeInfo.increase_unconfirmed
    dsimp only
    omega)]
  exact hi

lemma rootInv_runSys (steps : List BStep) : ∀ (s : Sys), goodTrace s steps → rootSelfInv s →
    rootSelfInv (runSys s steps) := by
  induction steps with
  | nil =>
      intro s _ hi
      exact hi
  | cons st rest ih =>
      intro s hg hi
      obtain ⟨h1, h2⟩ := hg
      have hstep : rootSelfInv (stepSys s st) := by
        cases st with
        | ctrl mr mc ms cp => exact rootInv_stepCtrl s mr mc ms cp h1 hi
        | tick => exact rootInv_stepTick s h1 hi
      exact ih (stepSys s st) h2 hstep

/-- C6 (amended): in every state reachable from startup by control frames
whose advertised root is not the bridge's own id and by announcer iterations
that do not trigger the root-loss recovery branch (which raises NameError,
see C1), `rootId = bridgeId` implies `cost = 0` and `rootPort = -1`.  The
exclusions are forced: a frame advertising the bridge's own id can win the
rule-3 tie-break and set cost 1 while `rootId = bridgeId`, and the crashed
recovery leaves `rootId = bridgeId` with the old cost and root port. -/
theorem C6_self_root_invariant (bridge_id : String) (lans : List Nat) (steps : List BStep)
    (h : goodTrace (startup bridge_id lans) steps) :
    rootSelfInv (runSys (startup bridge_id lans) steps) :=
  rootInv_runSys steps (startup bridge_id lans) h (fun _ => ⟨rfl, rfl⟩)

/-- Witness for `C6_self_root_invariant`: a benign two-step trace (adopt the
lower root `"0001"`, then one announcer iteration). -/
theorem C6_self_root_witness :
    rootSelfInv (runSys (startup "0002" [8000])
      [BStep.ctrl "0001" 0 "0001" 0, BStep.tick]) :=
  C6_self_root_invariant "0002" [8000] [BStep.ctrl "0001" 0 "0001" 0, BStep.tick]
    (by decide)

/-- C7: for a data frame handled by `sending_data`: when the destination is
known and mapped to a port other than the ingress port, the frame goes out
exactly that port if it is enabled and nowhere if it is disabled; when the
destination maps to the ingress port itself, the frame goes nowhere; when
the destination is unknown, the frame goes out exactly the enabled ports
other than the ingress port.  (Lookup is in the post-learning table, as in
the source.) -/
theorem C7_data_forwarding (msg_source msg_dest : String) (curr_port : Nat)
    (PORTS : List Port) (t : AddrTable)
    (hid : ∀ i (hi : i < PORTS.length), (PORTS.get ⟨i, hi⟩).id = i) :
    (∀ pid (hp : pid < PORTS.length),
        tableLookup (sending_data msg_source msg_dest curr_port PORTS t).1 msg_dest = some pid →
        pid ≠ curr_port →
          (((PORTS.get ⟨pid, hp⟩).is_enabled = true →
              (sending_data msg_source msg_dest curr_port PORTS t).2 = [pid])
            ∧ ((PORTS.get ⟨pid, hp⟩).is_enabled = false →
              (sending_data msg_source msg_dest curr_port PORTS t).2 = [])))
    ∧ (tableLookup (sending_data msg_source msg_dest curr_port PORTS t).1 msg_dest = some curr_port →
        (sending_data msg_source msg_dest curr_port PORTS t).2 = [])
    ∧ (tableLookup (sending_data msg_source msg_dest curr_port PORTS t).1 msg_dest = none →
        ∀ j, j ∈ (sending_data msg_source msg_dest curr_port PORTS t).2
          ↔ (j ≠ curr_port ∧ ∃ hj : j < PORTS.length, (PORTS.get ⟨j, hj⟩).is_enabled = true)) := by
  have hS := sending_data_sends msg_source msg_dest curr_port PORTS t
  refine ⟨?_, ?_, ?_⟩
  · intro pid hp hlook hne
    have hgd : PORTS.getD pid default = PORTS.get ⟨pid, hp⟩ := by
      rw [List.getD_eq_getElem _ _ hp]
      simp
    constructor
    · intro hen
      rw [hS, hlook]
      dsimp only
      rw [if_pos ⟨hne, by rw [hgd]; exact hen⟩, hgd]
      unfold Port.send
      have hperm : (PORTS.get ⟨pid, hp⟩).permanently_disabled = false := by
        rw [Port.is_enabled, Bool.and_eq_true] at hen
        simpa using hen.2
      rw [hperm]
      simp only [Bool.false_eq_true, if_false]
      rw [hid pid hp]
    · intro hen
      rw [hS, hlook]
      dsimp only
      rw [if_neg]
      intro hcontra
      rw [hgd, hen] at hcontra
      simp at hcontra
  · intro hlook
    rw [hS, hlook]
    dsimp only
    rw [if_neg]
    intro hcontra
    exact hcontra.1 rfl
  · intro hlook j
    rw [hS, hlook]
    dsimp only
    constructor
    · intro hmem
      rw [List.mem_flatMap] at hmem
      obtain ⟨ip, hip, hj⟩ := hmem
      rw [List.mem_enum_iff_getElem?] at hip
      have hlt : ip.1 < PORTS.length := by
        by_contra hge
        rw [List.getElem?_eq_none (by omega)] at hip
        cases hip
      rw [List.getElem?_eq_getElem hlt] at hip
      have hip2 : ip.2 = PORTS.get ⟨ip.1, hlt⟩ := by
        have hinj := Option.some.inj hip
        simp [hinj]
      split at hj
      · rename_i hcond
        unfold Port.send at hj
        have hperm : ip.2.permanently_disabled = false := by
          have hen := hcond.2
          rw [Port.is_enabled, Bool.and_eq_true] at hen
          simpa using hen.2
        rw [hperm] at hj
        simp only [Bool.false_eq_true, if_false, List.mem_singleton] at hj
        have hidj : ip.2.id = ip.1 := by
          rw [hip2]
          exact hid ip.1 hlt
        subst hj
        rw [hidj]
        exact ⟨hcond.1, hlt, by rw [← hip2]; exact hcond.2⟩
      · cases hj
    · intro hgood
      obtain ⟨hne, hj, hen⟩ := hgood
      rw [List.mem_flatMap]
      refine ⟨(j, PORTS.get ⟨j, hj⟩), ?_, ?_⟩
      · rw [List.mem_enum_iff_getElem?]
        simp
      · rw [if_pos ⟨hne, hen⟩]
        unfold Port.send
        have hperm : (PORTS.get ⟨j, hj⟩).permanently_disabled = false := by
          rw [Port.is_enabled, Bool.and_eq_true] at hen
          simpa using hen.2
        rw [hperm]
        simp only [Bool.false_eq_true, if_false]
        rw [hid j hj]
        exact List.mem_singleton.mpr rfl

/-- Witness for `C7_data_forwarding`: a frame from `"bb"` to `"aa"` entering
port 0, with `"aa"` recorded on port 1, relays out port 1 only. -/
theorem C7_data_forwarding_witness :
    (sending_data "bb" "aa" 0 (mkPorts [8000, 8001, 8002]) [("aa", 1)]).2 = [1] :=
  ((C7_data_forwarding "bb" "aa" 0 (mkPorts [8000, 8001, 8002]) [("aa", 1)]
      (by decide)).1 1 (by decide) (by decide) (by decide)).1 (by decide)

lemma mkPorts_length (lans : List Nat) : (mkPorts lans).length = lans.length := by
  unfold mkPorts
  simp

lemma mkPorts_get (lans : List Nat) (i : Nat) (hi : i < lans.length)
    (hp : i < (mkPorts lans).length) :
    (mkPorts lans).get ⟨i, hp⟩
      = Port.init i (lans.get ⟨i, hi⟩)
          (decide ((indexFrom lans (lans.get ⟨i, hi⟩)).getD lans.length < i)) := by
  unfold mkPorts
  simp only [List.get_eq_getElem, List.getElem_map, List.getElem_range]
  rw [List.getD_eq_getElem _ _ hi]

lemma indexFrom_some_get (v : Nat) : ∀ (l : List Nat) (f : Nat), indexFrom l v = some f →
    ∃ hf : f < l.length, l.get ⟨f, hf⟩ = v := by
  intro l
  induction l with
  | nil =>
      intro f h
      cases h
  | cons x xs ih =>
      intro f h
      unfold indexFrom at h
      by_cases hx : x = v
      · rw [if_pos hx] at h
        cases h
        exact ⟨Nat.succ_pos _, hx⟩
      · rw [if_neg hx] at h
        cases hg : indexFrom xs v with
        | none =>
            rw [hg] at h
            cases h
        | some g =>
            rw [hg] at h
            simp only [Option.map_some'] at h
            cases h
            obtain ⟨hgl, hgv⟩ := ih g hg
            exact ⟨Nat.succ_lt_succ hgl, by simpa using hgv⟩

lemma indexFrom_first (v : Nat) : ∀ (l : List Nat) (f : Nat), indexFrom l v = some f →
    ∀ k (hk : k < l.length), k < f → l.get ⟨k, hk⟩ ≠ v := by
  intro l
  induction l with
  | nil =>
      intro f h
      cases h
  | cons x xs ih =>
      intro f h k hk hkf
      unfold indexFrom at h
      by_cases hx : x = v
      · rw [if_pos hx] at h
        cases h
        omega
      · rw [if_neg hx] at h
        cases hg : indexFrom xs v with
        | none =>
            rw [hg] at h
            cases h
        | some g =>
            rw [hg] at h
            simp only [Option.map_some'] at h
            cases h
            cases k with
            | zero => simpa using hx
            | succ j =>
                have hj : j < xs.length := by simpa using hk
                have := ih g hg j hj (by omega)
                simpa using this

lemma indexFrom_le_of_get (v : Nat) : ∀ (l : List Nat) (i : Nat) (hi : i < l.length),
    l.get ⟨i, hi⟩ = v → ∃ f, indexFrom l v = some f ∧ f ≤ i := by
  intro l
  induction l with
  | nil =>
      intro i hi
      simp at hi
  | cons x xs ih =>
      intro i hi hv
      by_cases hx : x = v
      · exact ⟨0, by unfold indexFrom; rw [if_pos hx], Nat.zero_le i⟩
      · cases i with
        | zero =>
            exact absurd (by simpa using hv) hx
        | succ j =>
            have hj : j < xs.length := by simpa using hi
            obtain ⟨g, hg, hgle⟩ := ih j hj (by simpa using hv)
            refine ⟨g + 1, ?_, by omega⟩
            unfold indexFrom
            rw [if_neg hx, hg]
            rfl

/-- C10: in the startup port construction the Port at position `i` is
permanently disabled exactly when the same LAN endpoint appears at an
earlier position; `get_port_from_lan_port` (used for every incoming
datagram's ingress attribution, and for the construction itself) resolves
the endpoint to its first position, whose Port is never permanently
disabled (and, `Port.send`/`Port.send_bpdu` being suppressed on permanently
disabled ports, is the only Port transmitting to that endpoint). -/
theorem C10_duplicate_attachments (lans : List Nat) (i : Nat) (hi : i < lans.length)
    (v : Nat) (hv : lans.get ⟨i, hi⟩ = v) :
    ∃ f, indexFrom lans v = some f
      ∧ get_port_from_lan_port lans v = Except.ok f
      ∧ f ≤ i
      ∧ (∃ hf : f < lans.length, lans.get ⟨f, hf⟩ = v)
      ∧ (∀ k (hk : k < lans.length), k < f → lans.get ⟨k, hk⟩ ≠ v)
      ∧ (∀ hfp : f < (mkPorts lans).length,
          ((mkPorts lans).get ⟨f, hfp⟩).permanently_disabled = false)
      ∧ (∀ hip : i < (mkPorts lans).length,
          (((mkPorts lans).get ⟨i, hip⟩).permanently_disabled = true ↔ f < i)) := by
  obtain ⟨f, hf, hle⟩ := indexFrom_le_of_get v lans i hi hv
  obtain ⟨hflen, hfval⟩ := indexFrom_some_get v lans f hf
  refine ⟨f, hf, ?_, hle, ⟨hflen, hfval⟩, indexFrom_first v lans f hf, ?_, ?_⟩
  · unfold get_port_from_lan_port
    rw [hf]
  · intro hfp
    rw [mkPorts_get lans f hflen hfp, hfval, hf]
    simp [Port.init]
  · intro hip
    rw [mkPorts_get lans i hi hip, hv, hf]
    simp [Port.init]

/-- Witness for `C10_duplicate_attachments`: attachment list
`[8000, 8001, 8000]` at position 2, a duplicate of position 0. -/
theorem C10_duplicate_witness :
    ∃ f, indexFrom [8000, 8001, 8000] 8000 = some f
      ∧ get_port_from_lan_port [8000, 8001, 8000] 8000 = Except.ok f
      ∧ f ≤ 2
      ∧ (∃ hf : f < ([8000, 8001, 8000] : List Nat).length,
            ([8000, 8001, 8000] : List Nat).get ⟨f, hf⟩ = 8000)
      ∧ (∀ k (hk : k < ([8000, 8001, 8000] : List Nat).length), k < f →
            ([8000, 8001, 8000] : List Nat).get ⟨k, hk⟩ ≠ 8000)
      ∧ (∀ hfp : f < (mkPorts [8000, 8001, 8000]).length,
          ((mkPorts [8000, 8001, 8000]).get ⟨f, hfp⟩).permanently_disabled = false)
      ∧ (∀ hip : 2 < (mkPorts [8000, 8001, 8000]).length,
          (((mkPorts [8000, 8001, 8000]).get ⟨2, hip⟩).permanently_disabled = true ↔ f < 2)) :=
  C10_duplicate_attachments [8000, 8001, 8000] 2 (by decide) 8000 (by decide)

end Bridge
